import Mathlib

/-!
Verification development for the `iq` package of go-sona-types
(`src/iq/iq.go`): a client that resolves an application name against a
Nexus IQ server, submits an SBOM for audit, and polls a status endpoint
until the remote job completes or a retry budget is exhausted.

The definitions below are a shallow embedding of that Go source.  Network
responses are injected as scenario values (the code never inspects more of
a response than status code, transport failure, and decoded body, so a
scenario records exactly those).  Machine integers of the source are
modelled as `Nat` (all counters involved are non-negative and far from
overflow).  Goroutine and channel behaviour of the polling loop is modelled
by a sequential trace semantics explained at `processEvents` below.
-/

namespace Iq

/-- Model of a Go `error` value as used in `iq.go`: `basic` is an error built
with `fmt.Errorf`, `server` is the `ServerError` struct of the source with its
`Message` field and wrapped `Err` (every `ServerError` literal in the source
sets `Err`, so the nil case is not needed), and `missingLicense` is the
`ServerErrorMissingLicense` struct. -/
inductive GoError where
  | basic (msg : String)
  | server (message : String) (err : GoError)
  | missingLicense
deriving Repr, DecidableEq

/-- Model of the `StatusURLResult` struct of the source.  The
`absoluteReportHTMLURL` field carries the JSON tag `-` in Go and is therefore
never populated by unmarshalling; it is derived by `populateAbsoluteURL`. -/
structure StatusURLResult where
  policyAction : String
  reportHTMLURL : String
  absoluteReportHTMLURL : String
  isError : Bool
  errorMessage : String
deriving Repr, DecidableEq

/-- The zero value of `StatusURLResult`, as produced by `StatusURLResult{}`
at line 288 of the source. -/
def emptyStatus : StatusURLResult :=
  { policyAction := "", reportHTMLURL := "", absoluteReportHTMLURL := "",
    isError := false, errorMessage := "" }

/-- Model of the `resultError` struct of the source, the value sent on the
one-shot completion channel by the polling goroutine. -/
structure resultError where
  finished : Bool
  err : Option GoError
deriving Repr, DecidableEq

/-!
### Model of Go `net/url` as used by `populateAbsoluteURL`

The source calls `url.Parse`, `URL.IsAbs`, `URL.String` and reads `URL.Path`.
The real parser rejects some inputs (control characters, a leading colon, a
colon in the first segment of a rootless relative path, invalid ports,
invalid percent-escapes) and normalises others (it lowercases the scheme,
decodes percent-escapes into `Path`, and `URL.String` re-escapes characters
on output).  `goURLParse` below therefore models a restricted fragment,
conservatively:

* it returns `some` only for strings on which `net/url.Parse` demonstrably
  performs the plain component split — the scheme already lowercase, no
  percent-escapes, path, host and fragment drawn from the characters the
  serialiser passes through verbatim, a port of the form `:` digits, and
  either an authority form `scheme://host/path`, a rootless (opaque) form
  `scheme:rest`, or a scheme-less path — so that on a `some` result the
  real parser succeeds with the same scheme, host and path and
  `URL.String` reproduces the input string exactly;
* it returns `none` both for strings the real parser rejects — among them
  every input this development evaluates `none` at: control characters, a
  leading colon, a colon in the first segment of a rootless relative path,
  and a non-digit port — and for strings outside the modelled fragment
  (percent-escapes, uppercase scheme letters, userinfo, IPv6 hosts,
  protocol-relative `//host/path` references, characters the serialiser
  would re-escape), about which this development states nothing.

`URL.Path` excludes the query (after the first `?`) and the fragment (after
the first `#`), exactly as in Go; `URL.IsAbs` is `Scheme != ""`.
-/

/-- ASCII control characters: `url.Parse` rejects any URL containing one. -/
def isCtl (c : Char) : Bool := c.toNat < 32 || c.toNat == 127

/-- Characters `getScheme` accepts inside a URL scheme after the first one. -/
def isSchemeChar (c : Char) : Bool :=
  c.isAlpha || c.isDigit || c == '+' || c == '-' || c == '.'

/-- Scheme characters of the modelled fragment: the real parser lowercases
scheme letters before storing them, so the fragment is restricted to schemes
that are already lowercase, on which that normalisation is the identity. -/
def isLowerSchemeChar (c : Char) : Bool :=
  c.isLower || c.isDigit || c == '+' || c == '-' || c == '.'

/-- Path characters that `net/url` passes through unchanged: with no
percent-escape present, `Path` stores them verbatim and `URL.String`
re-serialises them without escaping. -/
def isSafePathChar (c : Char) : Bool :=
  c.isAlpha || c.isDigit || c == '-' || c == '_' || c == '.' || c == '~' ||
  c == '$' || c == '&' || c == '+' || c == ',' || c == '/' || c == ':' ||
  c == ';' || c == '=' || c == '@'

/-- Host characters that `parseHost` accepts and `URL.String` passes through
unchanged (a subset: userinfo, brackets and quote-like characters are left
outside the fragment). -/
def isSafeHostChar (c : Char) : Bool :=
  c.isAlpha || c.isDigit || c == '-' || c == '_' || c == '.' || c == '~' ||
  c == '!' || c == '$' || c == '&' || c == '(' || c == ')' || c == '*' ||
  c == '+' || c == ',' || c == ';' || c == '='

/-- Fragment characters that `setFragment` keeps and `EscapedFragment`
re-serialises unchanged. -/
def isSafeFragmentChar (c : Char) : Bool :=
  c.isAlpha || c.isDigit || c == '-' || c == '_' || c == '.' || c == '~' ||
  c == '$' || c == '&' || c == '+' || c == ',' || c == '/' || c == ':' ||
  c == ';' || c == '=' || c == '?' || c == '@' || c == '!' || c == '(' ||
  c == ')' || c == '*'

/-- Split a character list at the first occurrence of `c`.  Returns the part
before, the part after, and whether `c` occurred at all. -/
def splitOnFirst : List Char → Char → List Char × List Char × Bool
  | [], _ => ([], [], false)
  | x :: xs, c =>
    if x = c then ([], xs, true)
    else
      ⟨x :: (splitOnFirst xs c).1, (splitOnFirst xs c).2.1, (splitOnFirst xs c).2.2⟩

/-- Consume scheme characters up to a colon; return the scheme characters
and the remainder after the colon. -/
def schemeLoop : List Char → Option (List Char × List Char)
  | [] => none
  | x :: xs =>
    if x = ':' then some ([], xs)
    else if isSchemeChar x then
      match schemeLoop xs with
      | some (sch, r) => some (x :: sch, r)
      | none => none
    else none

/-- Outcome of `getScheme` of `net/url`: no scheme present (the string is a
path reference), a leading colon (`missing protocol scheme`, a parse error),
or a scheme followed by the remainder after the colon. -/
inductive SchemeScan where
  | noScheme
  | bad
  | found (sch rest : List Char)
deriving Repr, DecidableEq

/-- Model of `getScheme`: a scheme needs a leading letter and scheme
characters up to a colon; a leading colon is an error; any other character
before a colon means the string has no scheme. -/
def goGetScheme (l : List Char) : SchemeScan :=
  match l with
  | [] => .noScheme
  | x :: _ =>
    if x = ':' then .bad
    else if x.isAlpha then
      match schemeLoop l with
      | some (sch, rest) => .found sch rest
      | none => .noScheme
    else .noScheme

/-- The split of a raw URL at its first `#` (as in `url.Parse`). -/
def fragSplit (s : String) : List Char × List Char × Bool :=
  splitOnFirst s.data '#'

/-- The split of the pre-fragment part at its first `?`. -/
def querySplit (s : String) : List Char × List Char × Bool :=
  splitOnFirst (fragSplit s).1 '?'

/-- The `validOptionalPort` check of `parseHost`, restricted to a single
colon: safe host characters, optionally followed by `:` and digits. -/
def checkHostPort (l : List Char) : Bool :=
  (l.takeWhile (fun c => c != ':')).all isSafeHostChar &&
    (match l.dropWhile (fun c => c != ':') with
     | [] => true
     | _ :: ds => ds.all Char.isDigit)

/-- The `first path segment in URL cannot contain colon` error of the real
parser, for scheme-less URLs that do not start with a slash. -/
def relFirstSegmentColon : List Char → Bool
  | '/' :: _ => false
  | l => (l.takeWhile (fun c => c != '/')).any (fun c => c == ':')

/-- A scheme-less reference starting with `//` would carry an authority in
the real parser; the fragment leaves those out. -/
def relAuthorityForm : List Char → Bool
  | '/' :: '/' :: _ => true
  | _ => false

/-- Shape of the remainder after `scheme:` — `//` followed by an authority,
a rootless (opaque in `net/url` terms) remainder, or a shape outside the
fragment (`scheme:` alone, or `scheme:/path`). -/
inductive RestForm where
  | authority (auth : List Char)
  | rootless (r : List Char)
  | rejected
deriving Repr, DecidableEq

/-- Classify the remainder after `scheme:`. -/
def classifyRest : List Char → RestForm
  | [] => .rejected
  | rc :: rtail =>
    if rc = '/' then
      match rtail with
      | '/' :: auth => .authority auth
      | _ => .rejected
    else .rootless (rc :: rtail)

/-- Model of a Go `net/url.URL` restricted to the fields `iq.go` touches;
`rootless` is the `Opaque` field of `net/url`. -/
structure GoURL where
  scheme : String
  rootless : String
  host : String
  path : String
  hasQuery : Bool
  query : String
  hasFragment : Bool
  fragment : String
deriving Repr, DecidableEq

/-- Model of `url.Parse` on the conservative fragment described in the
section comment: `some` only where the real parse is the plain component
split and reserialises to the input; `none` both where the real parser
fails and outside the fragment. -/
def goURLParse (s : String) : Option GoURL :=
  if s.data.any isCtl then none
  else if s.data.any (fun c => c == '%') then none
  else if (fragSplit s).2.2 && !((fragSplit s).2.1.all isSafeFragmentChar) then none
  else
    match goGetScheme (querySplit s).1 with
    | .bad => none
    | .found sch rest =>
      if !(sch.all isLowerSchemeChar) then none
      else
        match classifyRest rest with
        | .authority auth =>
          if checkHostPort (auth.takeWhile (fun c => c != '/'))
              && !((auth.takeWhile (fun c => c != '/')) == [])
              && (auth.dropWhile (fun c => c != '/')).all isSafePathChar then
            some { scheme := sch.asString, rootless := "",
                   host := (auth.takeWhile (fun c => c != '/')).asString,
                   path := (auth.dropWhile (fun c => c != '/')).asString,
                   hasQuery := (querySplit s).2.2,
                   query := (querySplit s).2.1.asString,
                   hasFragment := (fragSplit s).2.2,
                   fragment := (fragSplit s).2.1.asString }
          else none
        | .rootless r =>
          some { scheme := sch.asString, rootless := r.asString,
                 host := "", path := "",
                 hasQuery := (querySplit s).2.2,
                 query := (querySplit s).2.1.asString,
                 hasFragment := (fragSplit s).2.2,
                 fragment := (fragSplit s).2.1.asString }
        | .rejected => none
    | .noScheme =>
      if relAuthorityForm (querySplit s).1 then none
      else if (querySplit s).1.all isSafePathChar
          && !(relFirstSegmentColon (querySplit s).1) then
        some { scheme := "", rootless := "", host := "",
               path := (querySplit s).1.asString,
               hasQuery := (querySplit s).2.2,
               query := (querySplit s).2.1.asString,
               hasFragment := (fragSplit s).2.2,
               fragment := (fragSplit s).2.1.asString }
      else none

/-- Model of `URL.IsAbs`: a URL is absolute when it has a scheme. -/
def GoURL.isAbs (u : GoURL) : Bool := u.scheme != ""

/-- Model of `URL.String` on the fragment: reassemble the components (an
opaque URL serialises as `scheme:rootless`, an authority form as
`scheme://host path`, a relative reference as its path). -/
def GoURL.toString (u : GoURL) : String :=
  (if u.scheme = "" then u.path
   else if u.rootless = "" then u.scheme ++ "://" ++ u.host ++ u.path
   else u.scheme ++ ":" ++ u.rootless)
    ++ (if u.hasQuery then "?" ++ u.query else "")
    ++ (if u.hasFragment then "#" ++ u.fragment else "")

/-- Model of `strings.TrimRight(s, "/")`: drop every trailing slash. -/
def trimRightSlashes (s : String) : String :=
  ((s.data.reverse.dropWhile (fun c => c == '/')).reverse).asString

/-- Model of `strings.TrimLeft(s, "/")`: drop every leading slash. -/
def trimLeftSlashes (s : String) : String :=
  (s.data.dropWhile (fun c => c == '/')).asString

/-- Model of `populateAbsoluteURL` (lines 555-565 of the source).  The Go
code discards the error of `url.Parse` and immediately calls `IsAbs` on the
returned pointer; when the parse fails that pointer is nil and the call
panics with a nil dereference.  The `none` result covers that panic and
also report URLs outside the modelled fragment of the parser (see
`goURLParse`), about which this development states nothing; every input at
which a theorem below evaluates this function to `none` is one the real
parser genuinely rejects.  On a successful parse, an absolute report URL is
reserialised by `URL.String`, and otherwise the server base with trailing
slashes trimmed, a `/`, and the parsed `URL.Path` with leading slashes
trimmed are concatenated. -/
def populateAbsoluteURL (iqServerBaseURL : String) (g : StatusURLResult) :
    Option StatusURLResult :=
  match goURLParse g.reportHTMLURL with
  | none => none
  | some parsedReportURL =>
    if parsedReportURL.isAbs then
      some { g with absoluteReportHTMLURL := parsedReportURL.toString }
    else
      some { g with absoluteReportHTMLURL :=
        trimRightSlashes iqServerBaseURL ++ "/" ++ trimLeftSlashes parsedReportURL.path }

/-- Model of the `Options` struct of the source. -/
structure Options where
  user : String
  token : String
  stage : String
  application : String
  server : String
  maxRetries : Nat
  tool : String
  version : String
  ossIndexUser : String
  ossIndexToken : String
  dbCacheName : String
  ttl : Nat
  pollInterval : Nat
deriving Repr, DecidableEq

/-- Model of the `Server` struct of the source: the resolved options plus the
`tries` counter (the logger and user-agent fields do not affect the
behaviour modelled here). -/
structure Server where
  options : Options
  tries : Nat
deriving Repr, DecidableEq

/-- Model of `reflect.ValueOf(&options).Elem().FieldByName(name).IsZero()`
for the four field names `New` actually queries; the zero value of a Go
string is the empty string. -/
def fieldIsZero (options : Options) : String → Bool
  | "Application" => options.application == ""
  | "Server" => options.server == ""
  | "User" => options.user == ""
  | "Token" => options.token == ""
  | _ => false

/-- Model of `validateRequiredOption` (lines 193-200 of the source). -/
def validateRequiredOption (options : Options) (optionName : String) : Option GoError :=
  if fieldIsZero options optionName then
    some (.basic ("missing options." ++ optionName))
  else none

/-- Model of `New` (lines 154-191 of the source): nil-logger check, the four
required-option checks in source order, defaulting of the poll interval to
one second and of the TTL to twelve hours from now, and trimming of one
trailing slash from the server base URL (`strings.HasSuffix` plus
`strings.TrimSuffix`, modelled on the character list).  `New` performs no
network call: the source function only constructs values. -/
def New (loggerPresent : Bool) (now : Nat) (options : Options) : Except GoError Server :=
  if loggerPresent = false then .error (.basic "missing logger")
  else
    match validateRequiredOption options "Application",
          validateRequiredOption options "Server",
          validateRequiredOption options "User",
          validateRequiredOption options "Token" with
    | some e, _, _, _ => .error e
    | none, some e, _, _ => .error e
    | none, none, some e, _ => .error e
    | none, none, none, some e => .error e
    | none, none, none, none =>
      let options1 :=
        if options.pollInterval = 0 then { options with pollInterval := 1000000000 }
        else options
      let options2 :=
        if options1.ttl = 0 then { options1 with ttl := now + 43200000000000 }
        else options1
      let options3 :=
        if options2.server.data.getLast? = some '/' then
          { options2 with server := options2.server.data.dropLast.asString }
        else options2
      .ok { options := options3, tries := 0 }

/-!
### Identifier resolver (`getInternalApplicationID`, lines 313-403)

A resolver scenario records what the single lookup request produced:
a request-construction failure, a transport failure, or an HTTP response
with its status code, status text, decoded body and raw body text.  A Go
`applications` slice that is nil (absent JSON field) and one that is empty
both fail the `!= nil && len > 0` test of the source, so both are `apps []`.
-/

/-- Decoded body of a resolver response. -/
inductive ResolveBody where
  | readError (e : GoError)
  | parseError (e : GoError)
  | apps (ids : List String)
deriving Repr, DecidableEq

/-- One resolver lookup scenario. -/
inductive ResolveResp where
  | newRequestError (e : GoError)
  | transportError (e : GoError)
  | httpResponse (code : Nat) (statusText : String) (body : ResolveBody) (rawBody : String)
deriving Repr, DecidableEq

/-- Model of `getInternalApplicationID`.  Branch order follows the source:
request construction, transport, the 402 licensing check (which precedes any
body read), the 200 branch (read, unmarshal, first application), and the
generic non-success branch carrying code, status text and raw body. -/
def getInternalApplicationID (applicationID : String) (scen : ResolveResp) :
    String × Option GoError :=
  match scen with
  | .newRequestError e =>
    ("", some (.server "Request to get internal application id failed" e))
  | .transportError e =>
    ("", some (.server "There was an error communicating with Nexus IQ Server to get your internal application ID" e))
  | .httpResponse code statusText body rawBody =>
    if code = 402 then ("", some .missingLicense)
    else if code = 200 then
      match body with
      | .readError e =>
        ("", some (.server "There was an error retrieving the bytes of the response for getting your internal application ID from Nexus IQ Server" e))
      | .parseError e =>
        ("", some (.server "failed to unmarshal response" e))
      | .apps [] =>
        ("", some (.server "Unable to retrieve an internal ID"
          (.basic ("Unable to retrieve an internal ID for the specified public application ID: " ++ applicationID))))
      | .apps (x :: _) => (x, none)
    else
      ("", some (.server "Unable to communicate with Nexus IQ Server"
        (.basic ("unable to communicate with Nexus IQ Server, status code: " ++ Nat.repr code
          ++ ", status: " ++ statusText ++ ", body: " ++ rawBody))))

/-!
### Submission client (`submitToThirdPartyAPI`, lines 405-475)
-/

/-- Decoded body of a submission response with the Accepted status. -/
inductive SubmitBody where
  | readError (e : GoError)
  | parseError (e : GoError)
  | parsed (statusUrl : String)
deriving Repr, DecidableEq

/-- One submission scenario.  For `otherStatus`, `errText` is the `%+v`
rendering of the body read error in the diagnostic message of the source,
`<nil>` when the body was read successfully. -/
inductive SubmitResp where
  | newRequestError (e : GoError)
  | transportError (e : GoError)
  | accepted (body : SubmitBody)
  | otherStatus (code : Nat) (rawBody : String) (errText : String)
deriving Repr, DecidableEq

/-- Model of `submitToThirdPartyAPI`.  Only a 202 Accepted response with a
readable, parseable body yields a nil error, and then the returned handle is
whatever the `statusUrl` field held, including the empty string. -/
def submitToThirdPartyAPI (scen : SubmitResp) : String × Option GoError :=
  match scen with
  | .newRequestError e =>
    ("", some (.server "Could not POST to Nexus iQ Third Party API" e))
  | .transportError e =>
    ("", some (.server "There was an issue communicating with the Nexus IQ Third Party API" e))
  | .accepted (.readError e) =>
    ("", some (.server "There was an issue submitting your sbom to the Nexus IQ Third Party API" e))
  | .accepted (.parseError e) =>
    ("", some (.server "Could not unmarshal response from IQ server" e))
  | .accepted (.parsed s) => (s, none)
  | .otherStatus code rawBody errText =>
    ("", some (.server "There was an issue submitting your sbom to the Nexus IQ Third Party API"
      (.basic ("status_code: " ++ Nat.repr code ++ ", body: " ++ rawBody ++ ", err: " ++ errText))))

/-!
### Poll loop (`audit` lines 268-311 and `pollIQServer` lines 477-553)

The goroutine started by `audit` runs `pollIQServer` repeatedly and the
caller performs exactly one receive on the unbuffered channel
`finishedChan`.  We model one call of `pollIQServer` as the list of effects
it executes in program order (`PollEvent`), plus its Go return value.  The
channel semantics with a single receiver is then: the first executed send
completes and is delivered to the caller; any later send can never find a
receiver, so execution of the goroutine stops there, blocked (`Halt.block`).
A nil dereference inside `populateAbsoluteURL` stops execution as a panic
(`Halt.crash`).  The `select` at the top of the goroutine loop can never
fire, because the only close of the channel is deferred to the return of the
goroutine itself and nothing else sends, so the loop always takes the
`default` branch; it is therefore not modelled as a separate event.
-/

/-- Responses a single poll of the status URL can produce. -/
inductive PollBody where
  | readError (e : GoError)
  | parseError (e : GoError)
  | parsed (r : StatusURLResult)
deriving Repr, DecidableEq

/-- One poll scenario.  For `parsed r`, the `absoluteReportHTMLURL` field of
`r` is forced to the empty string by `pollIQServer` below, because the JSON
tag `-` makes Go unmarshalling skip that field. -/
inductive PollResp where
  | newRequestError (e : GoError)
  | transportError (e : GoError)
  | httpResponse (code : Nat) (body : PollBody)
deriving Repr, DecidableEq

/-- Effects one call of `pollIQServer` executes, in program order. -/
inductive PollEvent where
  | httpRequest
  | setGlobal (g : StatusURLResult)
  | send (r : resultError)
  | incTries
  | nilDeref
deriving Repr, DecidableEq

/-- Model of one call of `pollIQServer`: the effect trace and the returned
error.  Branch order follows the source: the max-retries check precedes the
HTTP request; a transport error sends the raw error before returning a
wrapped one; a non-OK status only increments `tries`; an OK response stores
the parsed result in the package-level `statusURLResp`, sends early when the
`isError` flag is set, then derives the absolute URL (possibly panicking on
a nil parse result), sends the completion value, and increments `tries`. -/
def pollIQServer (maxRetries tries : Nat) (server : String) (scen : PollResp) :
    List PollEvent × Option GoError :=
  if tries > maxRetries then
    ([.send { finished := true, err := some (.basic ("exceeded max retries: " ++ Nat.repr maxRetries)) }],
     some (.server "exceeded max retries" (.basic ("exceeded max retries: " ++ Nat.repr maxRetries))))
  else
    match scen with
    | .newRequestError e => ([], some (.server "Could not poll IQ server" e))
    | .transportError e =>
      ([.httpRequest, .send { finished := true, err := some e }],
       some (.server "There was an error polling Nexus IQ Server" e))
    | .httpResponse code body =>
      if code = 200 then
        match body with
        | .readError e =>
          ([.httpRequest],
           some (.server "There was an error with processing the response from polling Nexus IQ Server" e))
        | .parseError e =>
          ([.httpRequest], some (.server "Could not unmarshal response from IQ server" e))
        | .parsed r =>
          let g1 : StatusURLResult := { r with absoluteReportHTMLURL := "" }
          match populateAbsoluteURL server g1 with
          | none =>
            ([.httpRequest, .setGlobal g1]
              ++ (if r.isError then [.send { finished := true, err := none }] else [])
              ++ [.nilDeref], none)
          | some g2 =>
            ([.httpRequest, .setGlobal g1]
              ++ (if r.isError then [.send { finished := true, err := none }] else [])
              ++ [.setGlobal g2, .send { finished := true, err := none }, .incTries], none)
      else
        ([.httpRequest, .incTries], none)

/-- State of the goroutine trace: the `tries` counter of the `Server`
struct, the package-level `statusURLResp`, the value delivered to the single
receiver (if a send has completed), every send executed so far in program
order, and counters of HTTP requests and `pollIQServer` calls. -/
structure LoopState where
  tries : Nat
  global : StatusURLResult
  delivered : Option resultError
  attempts : List resultError
  httpRequests : Nat
  pollCalls : Nat
deriving Repr, DecidableEq

/-- Why processing of an effect trace stopped early. -/
inductive Halt where
  | crash
  | block
deriving Repr, DecidableEq

/-- Run the effects of one `pollIQServer` call against the loop state.  A
send completes when nothing has been delivered yet; a second send blocks
forever (unbuffered channel with a single, already satisfied receiver), and
a nil dereference stops the program. -/
def processEvents : List PollEvent → LoopState → LoopState × Option Halt
  | [], st => (st, none)
  | e :: rest, st =>
    match e with
    | .httpRequest => processEvents rest { st with httpRequests := st.httpRequests + 1 }
    | .setGlobal g => processEvents rest { st with global := g }
    | .incTries => processEvents rest { st with tries := st.tries + 1 }
    | .nilDeref => (st, some .crash)
    | .send r =>
      match st.delivered with
      | none => processEvents rest { st with delivered := some r, attempts := st.attempts ++ [r] }
      | some _ => ({ st with attempts := st.attempts ++ [r] }, some .block)

/-- How the goroutine of one audit ends in the model: a clean return (the
only path is a poll error with nothing sent yet: the goroutine sends it and
returns), blocked on a send that can never complete, stopped by the nil
dereference panic, or out of model fuel (shown impossible for the fuel
`audit` supplies). -/
inductive LoopOutcome where
  | returned
  | blocked
  | crashed
  | fuelOut
deriving Repr, DecidableEq

/-- Final state of the polling goroutine. -/
structure LoopFinal where
  outcome : LoopOutcome
  st : LoopState
deriving Repr, DecidableEq

/-- The goroutine loop of `audit` (lines 292-307 of the source): call
`pollIQServer`, and if it returned a non-nil error, send that error on the
channel and return; otherwise sleep for the poll interval (time is not
modelled) and loop.  `script n` is the scenario of the `n`-th call.  `fuel`
bounds the number of loop iterations of the model only; `audit` passes
enough fuel that the bound is never hit. -/
def runLoop (maxRetries : Nat) (server : String) (script : Nat → PollResp) :
    Nat → Nat → LoopState → LoopFinal
  | 0, _, st => { outcome := .fuelOut, st := st }
  | fuel + 1, callIdx, st =>
    let st0 : LoopState := { st with pollCalls := st.pollCalls + 1 }
    let er := pollIQServer maxRetries st0.tries server (script callIdx)
    let ph := processEvents er.1 st0
    match ph.2 with
    | some .crash => { outcome := .crashed, st := ph.1 }
    | some .block => { outcome := .blocked, st := ph.1 }
    | none =>
      match er.2 with
      | some e =>
        match ph.1.delivered with
        | none =>
          { outcome := .returned,
            st := { ph.1 with
                      delivered := some (resultError.mk true (some e))
                      attempts := ph.1.attempts ++ [resultError.mk true (some e)] } }
        | some _ =>
          { outcome := .blocked,
            st := { ph.1 with attempts := ph.1.attempts ++ [resultError.mk true (some e)] } }
      | none => runLoop maxRetries server script fuel (callIdx + 1) ph.1

/-- Result of one `audit` invocation (lines 268-311): an error wrapped
around a submission failure, the empty-handle error, or a started poll loop
with its final goroutine state. -/
inductive AuditOutcome where
  | submitError (e : GoError)
  | emptyStatusURL (e : GoError)
  | polled (fin : LoopFinal)
deriving Repr, DecidableEq

/-- Model of `audit`: submit, fail on a submission error or an empty status
URL, otherwise reset the package-level `statusURLResp` to its zero value and
run the polling goroutine while the caller blocks on one receive. -/
def audit (maxRetries : Nat) (server sbom : String) (submitScen : SubmitResp)
    (script : Nat → PollResp) (tries0 : Nat) : AuditOutcome :=
  let sr := submitToThirdPartyAPI submitScen
  match sr.2 with
  | some e => .submitError (.server "There was an issue submitting to the Third Party API" e)
  | none =>
    if sr.1 = "" then
      .emptyStatusURL (.server "There was an issue obtaining a StatusURL"
        (.basic ("There was an issue submitting your sbom to the Nexus IQ Third Party API, sbom: " ++ sbom)))
    else
      .polled (runLoop maxRetries server script (maxRetries + 2) 0
        { tries := tries0, global := emptyStatus, delivered := none, attempts := [],
          httpRequests := 0, pollCalls := 0 })

/-- Number of HTTP poll requests an audit performed. -/
def AuditOutcome.pollHTTPRequests : AuditOutcome → Nat
  | .polled fin => fin.st.httpRequests
  | _ => 0

/-- The single value the caller of `audit` receives from the completion
channel, when the loop ran and a send completed. -/
def AuditOutcome.deliveredResult : AuditOutcome → Option resultError
  | .polled fin => fin.st.delivered
  | _ => none

/-- The `tries` counter of the client after an audit; on the pre-loop error
paths it is unchanged from `tries0`. -/
def AuditOutcome.triesFinal (tries0 : Nat) : AuditOutcome → Nat
  | .polled fin => fin.st.tries
  | _ => tries0

/-- Number of sends the polling goroutine executed. -/
def AuditOutcome.sendCount : AuditOutcome → Nat
  | .polled fin => fin.st.attempts.length
  | _ => 0

/-- The outcome of the polling goroutine, when the loop was started. -/
def AuditOutcome.loopOutcome : AuditOutcome → Option LoopOutcome
  | .polled fin => some fin.outcome
  | _ => none

/-! ### General lemmas about the loop semantics -/

theorem head?_append_right {α : Type} (l : List α) (r d : α)
    (h : l.head? = some d) : (l ++ [r]).head? = some d := by
  cases l with
  | nil => simp at h
  | cons a t => simpa using h

/-- Invariants of processing one effect trace: the delivered value is always
the first executed send, the `tries` counter never decreases, and a blocked
halt implies something was already delivered. -/
theorem processEvents_invariants :
    ∀ (evs : List PollEvent) (st : LoopState),
      (st.delivered = st.attempts.head? →
        (processEvents evs st).1.delivered = (processEvents evs st).1.attempts.head?)
    ∧ st.tries ≤ (processEvents evs st).1.tries
    ∧ ((processEvents evs st).2 = some .block → (processEvents evs st).1.delivered.isSome) := by
  intro evs
  induction evs with
  | nil =>
    intro st
    refine ⟨fun h => h, Nat.le_refl _, fun h => ?_⟩
    simp [processEvents] at h
  | cons e rest ih =>
    intro st
    cases e with
    | httpRequest =>
      simp only [processEvents]
      refine ⟨fun h => ?_, ?_, ?_⟩
      · exact (ih { st with httpRequests := st.httpRequests + 1 }).1 h
      · exact (ih { st with httpRequests := st.httpRequests + 1 }).2.1
      · exact (ih { st with httpRequests := st.httpRequests + 1 }).2.2
    | setGlobal g =>
      simp only [processEvents]
      refine ⟨fun h => ?_, ?_, ?_⟩
      · exact (ih { st with global := g }).1 h
      · exact (ih { st with global := g }).2.1
      · exact (ih { st with global := g }).2.2
    | incTries =>
      simp only [processEvents]
      refine ⟨fun h => ?_, ?_, ?_⟩
      · exact (ih { st with tries := st.tries + 1 }).1 h
      · exact Nat.le_trans (Nat.le_succ _) ((ih { st with tries := st.tries + 1 }).2.1)
      · exact (ih { st with tries := st.tries + 1 }).2.2
    | nilDeref =>
      simp only [processEvents]
      refine ⟨fun h => ?_, ?_, ?_⟩
      · exact h
      · exact Nat.le_refl _
      · intro h; simp at h
    | send r =>
      cases hd : st.delivered with
      | none =>
        simp only [processEvents, hd]
        refine ⟨fun h => ?_, ?_, ?_⟩
        · have hnil : st.attempts = [] := List.head?_eq_none_iff.mp h.symm
          apply (ih { st with delivered := some r, attempts := st.attempts ++ [r] }).1
          simp [hnil]
        · exact (ih { st with delivered := some r, attempts := st.attempts ++ [r] }).2.1
        · exact (ih { st with delivered := some r, attempts := st.attempts ++ [r] }).2.2
      | some d =>
        simp only [processEvents, hd]
        refine ⟨fun h => ?_, ?_, ?_⟩
        · exact (head?_append_right st.attempts r d h.symm).symm
        · exact Nat.le_refl _
        · intro _; simp

/-- When one `pollIQServer` call lets the loop continue (nil return, no halt
while processing its effects), the attempt counter was within the retry
budget and has been incremented by exactly one. -/
theorem poll_continue_tries (maxRetries : Nat) (server : String) (scen : PollResp)
    (t : Nat) (st : LoopState) (ht : st.tries = t)
    (hret : (pollIQServer maxRetries t server scen).2 = none)
    (hhalt : (processEvents (pollIQServer maxRetries t server scen).1 st).2 = none) :
    t ≤ maxRetries ∧
    (processEvents (pollIQServer maxRetries t server scen).1 st).1.tries = t + 1 := by
  by_cases hmax : t > maxRetries
  · simp [pollIQServer, hmax] at hret
  · refine ⟨Nat.le_of_not_lt hmax, ?_⟩
    cases scen with
    | newRequestError e => simp [pollIQServer, hmax] at hret
    | transportError e => simp [pollIQServer, hmax] at hret
    | httpResponse code body =>
      by_cases hcode : code = 200
      · cases body with
        | readError e => simp [pollIQServer, hmax, hcode] at hret
        | parseError e => simp [pollIQServer, hmax, hcode] at hret
        | parsed r =>
          cases hpop : populateAbsoluteURL server { r with absoluteReportHTMLURL := "" } with
          | none =>
            cases hr : r.isError with
            | false =>
              rw [hr] at hpop
              simp [pollIQServer, hmax, hcode, hpop, hr, processEvents] at hhalt
            | true =>
              rw [hr] at hpop
              cases hd : st.delivered with
              | none => simp [pollIQServer, hmax, hcode, hpop, hr, hd, processEvents] at hhalt
              | some d => simp [pollIQServer, hmax, hcode, hpop, hr, hd, processEvents] at hhalt
          | some g2 =>
            cases hr : r.isError with
            | false =>
              rw [hr] at hpop
              cases hd : st.delivered with
              | none => simp [pollIQServer, hmax, hcode, hpop, hr, hd, processEvents, ht]
              | some d => simp [pollIQServer, hmax, hcode, hpop, hr, hd, processEvents] at hhalt
            | true =>
              rw [hr] at hpop
              cases hd : st.delivered with
              | none => simp [pollIQServer, hmax, hcode, hpop, hr, hd, processEvents] at hhalt
              | some d => simp [pollIQServer, hmax, hcode, hpop, hr, hd, processEvents] at hhalt
      · simp [pollIQServer, hmax, hcode, processEvents, ht]

/-- Invariants of the whole goroutine loop: the delivered value is the first
send executed, `tries` never decreases, a blocked or cleanly returned
goroutine has delivered something, and with enough fuel the fuel bound of
the model is never hit. -/
theorem runLoop_invariants (maxRetries : Nat) (server : String) (script : Nat → PollResp) :
    ∀ (fuel callIdx : Nat) (st : LoopState),
      st.delivered = st.attempts.head? →
      ((runLoop maxRetries server script fuel callIdx st).st.delivered =
        (runLoop maxRetries server script fuel callIdx st).st.attempts.head?)
    ∧ st.tries ≤ (runLoop maxRetries server script fuel callIdx st).st.tries
    ∧ ((runLoop maxRetries server script fuel callIdx st).outcome = .blocked →
        (runLoop maxRetries server script fuel callIdx st).st.delivered.isSome)
    ∧ ((runLoop maxRetries server script fuel callIdx st).outcome = .returned →
        (runLoop maxRetries server script fuel callIdx st).st.delivered.isSome)
    ∧ (maxRetries + 2 ≤ fuel + st.tries → 1 ≤ fuel →
        (runLoop maxRetries server script fuel callIdx st).outcome ≠ .fuelOut) := by
  intro fuel
  induction fuel with
  | zero =>
    intro callIdx st hinv
    rw [runLoop]
    exact ⟨hinv, Nat.le_refl _, by simp, by simp, fun _ h => by omega⟩
  | succ f ih =>
    intro callIdx st hinv
    rw [runLoop]
    have hpe := processEvents_invariants
      (pollIQServer maxRetries st.tries server (script callIdx)).1
      { st with pollCalls := st.pollCalls + 1 }
    split
    · exact ⟨hpe.1 hinv, hpe.2.1, by simp, by simp, fun _ _ => by simp⟩
    · rename_i hhalt
      exact ⟨hpe.1 hinv, hpe.2.1, fun _ => hpe.2.2 hhalt, by simp, fun _ _ => by simp⟩
    · rename_i hhalt
      split
      · rename_i e hret
        split
        · rename_i hd
          have h1 := hpe.1 hinv
          rw [hd] at h1
          have hattempts := List.head?_eq_none_iff.mp h1.symm
          refine ⟨?_, hpe.2.1, by simp, fun _ => by simp, fun _ _ => by simp⟩
          simp [hattempts]
        · rename_i d hd
          have h1 := hpe.1 hinv
          rw [hd] at h1
          have h2 := head?_append_right
            (processEvents (pollIQServer maxRetries st.tries server (script callIdx)).1
              { st with pollCalls := st.pollCalls + 1 }).1.attempts
            (resultError.mk true (some e)) d h1.symm
          refine ⟨?_, hpe.2.1, fun _ => ?_, by simp, fun _ _ => by simp⟩
          · simp only [hd, h2]
          · simp [hd]
      · rename_i hret
        have hcont := poll_continue_tries maxRetries server (script callIdx) st.tries
          { st with pollCalls := st.pollCalls + 1 } rfl hret hhalt
        have hrec := ih (callIdx + 1)
          (processEvents (pollIQServer maxRetries st.tries server (script callIdx)).1
            { st with pollCalls := st.pollCalls + 1 }).1
          (hpe.1 hinv)
        have htr := hcont.2
        have hle := hcont.1
        refine ⟨hrec.1, Nat.le_trans hpe.2.1 hrec.2.1, hrec.2.2.1, hrec.2.2.2.1, ?_⟩
        intro hguard _
        apply hrec.2.2.2.2 <;> omega

/-!
### The claims
-/

/-- C1, counterexample to the claim as stated.  On an OK poll response with
the isError flag set, the loop does not signal completion exactly once: the
source sends on the completion channel inside the `if response.IsError`
block and then sends again unconditionally a few lines later, so the
goroutine executes two sends; only the first can ever complete (the caller
performs a single receive on the unbuffered channel), and the goroutine
stays blocked on the second forever instead of terminating. -/
theorem c1_counterexample :
    (audit 2 "http://h" "sbom" (.accepted (.parsed "s"))
        (fun _ => .httpResponse 200 (.parsed { emptyStatus with reportHTMLURL := "/r/1", isError := true })) 0).sendCount = 2
  ∧ ¬ (audit 2 "http://h" "sbom" (.accepted (.parsed "s"))
        (fun _ => .httpResponse 200 (.parsed { emptyStatus with reportHTMLURL := "/r/1", isError := true })) 0).sendCount = 1
  ∧ (audit 2 "http://h" "sbom" (.accepted (.parsed "s"))
        (fun _ => .httpResponse 200 (.parsed { emptyStatus with reportHTMLURL := "/r/1", isError := true })) 0).loopOutcome = some .blocked := by
  decide

/-- C1 (amended): for every audit invocation that reaches the poll loop, the
caller receives exactly one `(finished, error)` result — the first send the
goroutine executes — unless a poll response triggers the report-URL parse
panic (see C2); the goroutine may attempt further sends that never complete
(it blocks), but those never reach the caller, and the model fuel bound is
never what stops the loop. -/
theorem c1_exactly_one_delivery (maxRetries : Nat) (server sbom statusURL : String)
    (script : Nat → PollResp) (tries0 : Nat) (h : statusURL ≠ "") :
    ∃ fin, audit maxRetries server sbom (.accepted (.parsed statusURL)) script tries0 = .polled fin
      ∧ fin.st.delivered = fin.st.attempts.head?
      ∧ fin.outcome ≠ .fuelOut
      ∧ (fin.outcome ≠ .crashed → ∃ r, fin.st.delivered = some r) := by
  refine ⟨runLoop maxRetries server script (maxRetries + 2) 0
      { tries := tries0, global := emptyStatus, delivered := none, attempts := [],
        httpRequests := 0, pollCalls := 0 }, ?_, ?_, ?_, ?_⟩
  · simp [audit, submitToThirdPartyAPI, h]
  · exact (runLoop_invariants maxRetries server script (maxRetries + 2) 0
      { tries := tries0, global := emptyStatus, delivered := none, attempts := [],
        httpRequests := 0, pollCalls := 0 } rfl).1
  · exact (runLoop_invariants maxRetries server script (maxRetries + 2) 0
      { tries := tries0, global := emptyStatus, delivered := none, attempts := [],
        httpRequests := 0, pollCalls := 0 } rfl).2.2.2.2 (by omega) (by omega)
  · intro hcr
    have hI := runLoop_invariants maxRetries server script (maxRetries + 2) 0
      { tries := tries0, global := emptyStatus, delivered := none, attempts := [],
        httpRequests := 0, pollCalls := 0 } rfl
    cases hout : (runLoop maxRetries server script (maxRetries + 2) 0
        { tries := tries0, global := emptyStatus, delivered := none, attempts := [],
          httpRequests := 0, pollCalls := 0 }).outcome with
    | returned => exact Option.isSome_iff_exists.mp (hI.2.2.2.1 hout)
    | blocked => exact Option.isSome_iff_exists.mp (hI.2.2.1 hout)
    | crashed => exact absurd hout hcr
    | fuelOut => exact absurd hout (hI.2.2.2.2 (by omega) (by omega))

/-- C1, witness: the amended theorem applied at a concrete audit. -/
theorem c1_exactly_one_delivery_witness :
    ∃ fin, audit 0 "http://h" "bom" (.accepted (.parsed "u"))
        (fun _ => PollResp.httpResponse 404 (PollBody.parsed emptyStatus)) 0 = .polled fin
      ∧ fin.st.delivered = fin.st.attempts.head?
      ∧ fin.outcome ≠ .fuelOut
      ∧ (fin.outcome ≠ .crashed → ∃ r, fin.st.delivered = some r) :=
  c1_exactly_one_delivery 0 "http://h" "bom" "u"
    (fun _ => PollResp.httpResponse 404 (PollBody.parsed emptyStatus)) 0 (by decide)

/-- C2: the claim is right and the code is wrong.  On a report URL that
`url.Parse` rejects (for example one containing a control character), the
source discards the parse error and calls `IsAbs` on the nil result, a nil
pointer dereference panic, instead of leaving the absolute URL unset.  The
`none` results below are the model of that panic, and the final conjunct
shows the whole polling goroutine dying on such a response. -/
theorem c2_unparsable_report_url :
    goURLParse "\n" = none
  ∧ populateAbsoluteURL "http://h" { emptyStatus with reportHTMLURL := "\n" } = none
  ∧ (audit 2 "http://h" "sbom" (.accepted (.parsed "s"))
      (fun _ => .httpResponse 200 (.parsed { emptyStatus with reportHTMLURL := "\n" })) 0).loopOutcome = some .crashed := by
  decide

/-- C3: with max retries 2 and a status endpoint that always answers with a
non-OK status, exactly 3 HTTP poll requests happen (at attempt counter
values 0, 1 and 2) and the caller then receives the max-retries error; and
in general every `pollIQServer` call whose attempt counter exceeds the
configured maximum performs no HTTP request and fails with that error. -/
theorem c3_retry_budget :
    ((audit 2 "http://h" "sbom" (.accepted (.parsed "s"))
        (fun _ => .httpResponse 404 (.parsed emptyStatus)) 0).pollHTTPRequests = 3
    ∧ (audit 2 "http://h" "sbom" (.accepted (.parsed "s"))
        (fun _ => .httpResponse 404 (.parsed emptyStatus)) 0).deliveredResult =
        some { finished := true, err := some (.basic "exceeded max retries: 2") })
  ∧ ∀ (maxRetries tries : Nat) (server : String) (scen : PollResp), tries > maxRetries →
      pollIQServer maxRetries tries server scen =
        ([.send { finished := true, err := some (.basic ("exceeded max retries: " ++ Nat.repr maxRetries)) }],
         some (.server "exceeded max retries" (.basic ("exceeded max retries: " ++ Nat.repr maxRetries)))) := by
  refine ⟨⟨by decide, by decide⟩, ?_⟩
  intro maxRetries tries server scen hgt
  simp [pollIQServer, hgt]

/-- C3, witness: the general part applied at attempt counter 3 with maximum 2. -/
theorem c3_retry_budget_witness :
    pollIQServer 2 3 "http://h" (PollResp.httpResponse 404 (PollBody.parsed emptyStatus)) =
      ([.send { finished := true, err := some (.basic ("exceeded max retries: " ++ Nat.repr 2)) }],
       some (.server "exceeded max retries" (.basic ("exceeded max retries: " ++ Nat.repr 2)))) :=
  c3_retry_budget.2 2 3 "http://h" (PollResp.httpResponse 404 (PollBody.parsed emptyStatus)) (by decide)

/-- C5: a submission handle is returned with a nil error only for an
Accepted (202) response whose body parsed; with body statusUrl "abc" the
handle is "abc"; and with an Accepted response whose statusUrl is empty,
`audit` fails with the empty-handle error before any polling happens. -/
theorem c5_submit_handle :
    (∀ (scen : SubmitResp) (handle : String),
        submitToThirdPartyAPI scen = (handle, none) → scen = .accepted (.parsed handle))
  ∧ submitToThirdPartyAPI (.accepted (.parsed "abc")) = ("abc", none)
  ∧ ∀ (maxRetries : Nat) (server sbom : String) (script : Nat → PollResp) (tries0 : Nat),
      audit maxRetries server sbom (.accepted (.parsed "")) script tries0 =
        .emptyStatusURL (.server "There was an issue obtaining a StatusURL"
          (.basic ("There was an issue submitting your sbom to the Nexus IQ Third Party API, sbom: " ++ sbom)))
      ∧ (audit maxRetries server sbom (.accepted (.parsed "")) script tries0).pollHTTPRequests = 0 := by
  refine ⟨?_, rfl, ?_⟩
  · intro scen handle h
    cases scen with
    | newRequestError e => simp [submitToThirdPartyAPI] at h
    | transportError e => simp [submitToThirdPartyAPI] at h
    | accepted body =>
      cases body with
      | readError e => simp [submitToThirdPartyAPI] at h
      | parseError e => simp [submitToThirdPartyAPI] at h
      | parsed s =>
        simp only [submitToThirdPartyAPI, Prod.mk.injEq] at h
        rw [h.1]
    | otherStatus code rawBody errText => simp [submitToThirdPartyAPI] at h
  · intro maxRetries server sbom script tries0
    exact ⟨rfl, rfl⟩

/-- C5, witness: the only-Accepted clause applied at a concrete submission. -/
theorem c5_submit_handle_witness :
    SubmitResp.accepted (SubmitBody.parsed "abc") = .accepted (.parsed "abc") :=
  c5_submit_handle.1 (SubmitResp.accepted (SubmitBody.parsed "abc")) "abc" rfl

/-- C6: when any required option (application, server, user or token) is
empty, `New` fails with an error naming a missing option that is indeed
empty; `New` is a pure constructor in the source and performs no network
call. -/
theorem c6_config_validation (loggerPresent : Bool) (now : Nat) (options : Options)
    (hl : loggerPresent = true)
    (h : options.application = "" ∨ options.server = "" ∨ options.user = "" ∨ options.token = "") :
    ∃ name, New loggerPresent now options = .error (.basic ("missing options." ++ name))
      ∧ fieldIsZero options name = true := by
  subst hl
  by_cases ha : options.application = ""
  · refine ⟨"Application", ?_, by simp [fieldIsZero, ha]⟩
    have h1 : validateRequiredOption options "Application" =
        some (.basic ("missing options." ++ "Application")) := by
      simp [validateRequiredOption, fieldIsZero, ha]
    simp [New, h1]
  · have h0 : validateRequiredOption options "Application" = none := by
      simp [validateRequiredOption, fieldIsZero, ha]
    by_cases hs : options.server = ""
    · refine ⟨"Server", ?_, by simp [fieldIsZero, hs]⟩
      have h1 : validateRequiredOption options "Server" =
          some (.basic ("missing options." ++ "Server")) := by
        simp [validateRequiredOption, fieldIsZero, hs]
      simp [New, h0, h1]
    · have h0s : validateRequiredOption options "Server" = none := by
        simp [validateRequiredOption, fieldIsZero, hs]
      by_cases hu : options.user = ""
      · refine ⟨"User", ?_, by simp [fieldIsZero, hu]⟩
        have h1 : validateRequiredOption options "User" =
            some (.basic ("missing options." ++ "User")) := by
          simp [validateRequiredOption, fieldIsZero, hu]
        simp [New, h0, h0s, h1]
      · have h0u : validateRequiredOption options "User" = none := by
          simp [validateRequiredOption, fieldIsZero, hu]
        have htk : options.token = "" := by
          rcases h with h | h | h | h
          · exact absurd h ha
          · exact absurd h hs
          · exact absurd h hu
          · exact h
        refine ⟨"Token", ?_, by simp [fieldIsZero, htk]⟩
        have h1 : validateRequiredOption options "Token" =
            some (.basic ("missing options." ++ "Token")) := by
          simp [validateRequiredOption, fieldIsZero, htk]
        simp [New, h0, h0s, h0u, h1]

/-- C6, witness: the validation theorem applied at concrete options with an
empty token. -/
theorem c6_config_validation_witness :
    ∃ name, New true 0
        { user := "u", token := "", stage := "build", application := "app",
          server := "http://h", maxRetries := 3, tool := "", version := "",
          ossIndexUser := "", ossIndexToken := "", dbCacheName := "", ttl := 1,
          pollInterval := 1 } = .error (.basic ("missing options." ++ name))
      ∧ fieldIsZero
        { user := "u", token := "", stage := "build", application := "app",
          server := "http://h", maxRetries := 3, tool := "", version := "",
          ossIndexUser := "", ossIndexToken := "", dbCacheName := "", ttl := 1,
          pollInterval := 1 } name = true :=
  c6_config_validation true 0
    { user := "u", token := "", stage := "build", application := "app",
      server := "http://h", maxRetries := 3, tool := "", version := "",
      ossIndexUser := "", ossIndexToken := "", dbCacheName := "", ttl := 1,
      pollInterval := 1 } rfl (Or.inr (Or.inr (Or.inr rfl)))

/-- C7: an OK resolver response whose applications list is empty (a nil and
an empty Go slice both model as the empty list) makes resolution fail with
the application-not-found error rather than return an identifier. -/
theorem c7_application_not_found (applicationID statusText rawBody : String) :
    getInternalApplicationID applicationID (.httpResponse 200 statusText (.apps []) rawBody) =
      ("", some (.server "Unable to retrieve an internal ID"
        (.basic ("Unable to retrieve an internal ID for the specified public application ID: " ++ applicationID)))) := rfl

/-- C8: a resolver response with status 402 fails with the missing-license
error for every possible body and raw body, so the body is not consulted on
this path. -/
theorem c8_missing_license (applicationID statusText rawBody : String) (body : ResolveBody) :
    getInternalApplicationID applicationID (.httpResponse 402 statusText body rawBody) =
      ("", some .missingLicense) := rfl

/-- C9, counterexample to the claim as stated: a poll whose HTTP request
completes but whose body fails to parse performs one poll request yet
leaves the attempt counter untouched (the source returns before `tries++`),
so the counter is not incremented once per poll request. -/
theorem c9_counterexample :
    (audit 2 "http://h" "sbom" (.accepted (.parsed "s"))
        (fun _ => .httpResponse 200 (.parseError (.basic "bad json"))) 0).pollHTTPRequests = 1
  ∧ (audit 2 "http://h" "sbom" (.accepted (.parsed "s"))
        (fun _ => .httpResponse 200 (.parseError (.basic "bad json"))) 0).triesFinal 0 = 0
  ∧ ¬ (audit 2 "http://h" "sbom" (.accepted (.parsed "s"))
        (fun _ => .httpResponse 200 (.parseError (.basic "bad json"))) 0).triesFinal 0 =
      0 + (audit 2 "http://h" "sbom" (.accepted (.parsed "s"))
        (fun _ => .httpResponse 200 (.parseError (.basic "bad json"))) 0).pollHTTPRequests := by
  decide

/-- C9 (amended): the attempt counter starts at 0 at construction and is
never reset or decremented — across any audit on the same instance the
final counter is at least the initial one — but it is incremented only by
polls that observe a non-OK status or a successfully parsed OK response; a
poll that fails in transport (third conjunct) leaves it unchanged. -/
theorem c9_tries_monotone :
    (∀ (loggerPresent : Bool) (now : Nat) (options : Options) (sv : Server),
        New loggerPresent now options = .ok sv → sv.tries = 0)
  ∧ (∀ (maxRetries : Nat) (server sbom : String) (submitScen : SubmitResp)
        (script : Nat → PollResp) (tries0 : Nat),
        tries0 ≤ (audit maxRetries server sbom submitScen script tries0).triesFinal tries0)
  ∧ (∀ (maxRetries tries : Nat) (server : String) (e : GoError) (st : LoopState),
        (processEvents (pollIQServer maxRetries tries server (.transportError e)).1 st).1.tries = st.tries) := by
  refine ⟨?_, ?_, ?_⟩
  · intro loggerPresent now options sv h
    simp only [New] at h
    split at h
    · simp at h
    · split at h
      · simp at h
      · simp at h
      · simp at h
      · simp at h
      · simp only [Except.ok.injEq] at h
        rw [← h]
  · intro maxRetries server sbom submitScen script tries0
    cases hsub : (submitToThirdPartyAPI submitScen).2 with
    | some e => simp [audit, hsub, AuditOutcome.triesFinal]
    | none =>
      by_cases hurl : (submitToThirdPartyAPI submitScen).1 = ""
      · simp [audit, hsub, hurl, AuditOutcome.triesFinal]
      · simp only [audit, hsub, hurl, if_neg, ite_false, AuditOutcome.triesFinal]
        exact (runLoop_invariants maxRetries server script (maxRetries + 2) 0
          { tries := tries0, global := emptyStatus, delivered := none, attempts := [],
            httpRequests := 0, pollCalls := 0 } rfl).2.1
  · intro maxRetries tries server e st
    by_cases hmax : tries > maxRetries
    · cases hd : st.delivered with
      | none => simp [pollIQServer, hmax, hd, processEvents]
      | some d => simp [pollIQServer, hmax, hd, processEvents]
    · cases hd : st.delivered with
      | none => simp [pollIQServer, hmax, hd, processEvents]
      | some d => simp [pollIQServer, hmax, hd, processEvents]

/-- C9, witness: a client built by `New` starts with the counter at 0, and a
concrete audit does not decrease it. -/
theorem c9_tries_monotone_witness :
    ({ options :=
        { user := "u", token := "t", stage := "build", application := "app",
          server := "http://h", maxRetries := 3, tool := "", version := "",
          ossIndexUser := "", ossIndexToken := "", dbCacheName := "", ttl := 1,
          pollInterval := 1 }, tries := 0 } : Server).tries = 0 :=
  c9_tries_monotone.1 true 0
    { user := "u", token := "t", stage := "build", application := "app",
      server := "http://h", maxRetries := 3, tool := "", version := "",
      ossIndexUser := "", ossIndexToken := "", dbCacheName := "", ttl := 1,
      pollInterval := 1 }
    { options :=
        { user := "u", token := "t", stage := "build", application := "app",
          server := "http://h", maxRetries := 3, tool := "", version := "",
          ossIndexUser := "", ossIndexToken := "", dbCacheName := "", ttl := 1,
          pollInterval := 1 }, tries := 0 } rfl

/-- C10: when the resolver response contains a non-empty applications list,
the identifier returned is that of the first element, whatever the rest of
the list holds. -/
theorem c10_first_application (applicationID statusText rawBody x : String) (rest : List String) :
    getInternalApplicationID applicationID
      (.httpResponse 200 statusText (.apps (x :: rest)) rawBody) = (x, none) := rfl

end Iq

